import Mathlib

/-!
Verification development for the continuous crypto market-data extractor
(`Backend/software_websocket_connection_files/`).  The C sources are shallowly
embedded: pure helpers become Lean functions over `List Char` / `String`,
machine integers become `Int` / `Nat`, the mutable retry ledger and
last-message-time arrays become explicit list-valued state, and the libc
calendar routines (`gmtime_r`, `timegm`) are embedded with the standard
proleptic-Gregorian civil-calendar algorithms they implement.
-/

namespace CryptoWS

/-! ## C string primitives

Models of the libc string operations used by the sources.  C strings are
modelled as `List Char` (no interior NUL characters appear in any of the
strings handled by the program); `String` values are converted through
`String.data`. -/

/-- Character-level model of `isdigit` from ctype.h (ASCII). -/
def cIsDigit (c : Char) : Bool :=
  '0' ≤ c && c ≤ '9'

/-- Character-level model of `isspace` from ctype.h (ASCII). -/
def cIsSpace (c : Char) : Bool :=
  c = ' ' || c = '\t' || c = '\n' || (c = Char.ofNat 11) || (c = Char.ofNat 12) || c = '\r'

/-- Model of `strncmp(a, b, n) == 0`.  For NUL-free strings this holds exactly
when the first `n` characters agree, where a string shorter than `n` must end
at the same position in both arguments (the NUL terminators are compared). -/
def cStrncmpEq (a b : List Char) (n : Nat) : Bool :=
  a.take n == b.take n

/-- Model of `strcmp(a, b) == 0`. -/
def cStrcmpEq (a b : List Char) : Bool :=
  a == b

/-- Does `pat` occur at the head of `s`? (helper for the `strstr` model). -/
def listIsPrefix (pat s : List Char) : Bool :=
  pat == s.take pat.length

/-- Model of `strstr`: index of the first occurrence of `pat` in `s`
(`none` when absent).  `strstr` with an empty pattern returns the start. -/
def strstrIdx? (s pat : List Char) : Option Nat :=
  match s with
  | [] => if pat.isEmpty then some 0 else none
  | _ :: rest =>
    if listIsPrefix pat s then some 0
    else (strstrIdx? rest pat).map (· + 1)

/-- Model of `atoi` / `atoll`: skip leading whitespace, read an optional sign
and then a maximal run of digits; with no digits the result is 0.  The C
functions share this behaviour (overflow never occurs on the program's
inputs). -/
def cAtoll (s : List Char) : Int :=
  let afterWs := s.dropWhile (fun c => cIsSpace c)
  let (neg, afterSign) :=
    match afterWs with
    | '-' :: rest => (true, rest)
    | '+' :: rest => (false, rest)
    | rest => (false, rest)
  let digits := afterSign.takeWhile (fun c => cIsDigit c)
  let mag : Nat := digits.foldl (fun acc c => acc * 10 + (c.toNat - '0'.toNat)) 0
  if neg then -(mag : Int) else (mag : Int)

/-- `cAtoll` on a `String` argument (the sources pass `char *` suffixes). -/
def cAtollStr (s : String) : Int :=
  cAtoll s.data

/-- Pointer arithmetic `s + n` on a NUL-terminated string: the suffix starting
at index `n`.  (Reading at or past the terminator yields the empty string.) -/
def cSuffix (s : String) (n : Nat) : String :=
  String.mk (s.data.drop n)

/-- `take` on a `String`, used to state `strncmp`-prefix conditions. -/
def strTake (s : String) (n : Nat) : String :=
  String.mk (s.data.take n)

/-! ## Calendar arithmetic (`gmtime_r` / `timegm`)

The sources delegate civil-calendar conversion to libc.  Both directions are
embedded with the standard era-based algorithms for the proleptic Gregorian
calendar, which is exactly what `gmtime_r` and `timegm` compute for UTC
(no leap seconds, no time zones). -/

/-- Days since 1970-01-01 to civil date (year, month 1..12, day 1..31). -/
def civilFromDays (z0 : Int) : Int × Int × Int :=
  let z := z0 + 719468
  let era := z.fdiv 146097
  let doe := z - era * 146097
  let yoe := (doe - doe / 1460 + doe / 36524 - doe / 146096) / 365
  let y := yoe + era * 400
  let doy := doe - (365 * yoe + yoe / 4 - yoe / 100)
  let mp := (5 * doy + 2) / 153
  let d := doy - (153 * mp + 2) / 5 + 1
  let m := if mp < 10 then mp + 3 else mp - 9
  (if m ≤ 2 then y + 1 else y, m, d)

/-- Civil date to days since 1970-01-01 (inverse of `civilFromDays`; the day
argument may lie outside 1..31, in which case it spills linearly, matching
the field normalization performed by `timegm`). -/
def daysFromCivil (y0 m d : Int) : Int :=
  let y := if m ≤ 2 then y0 - 1 else y0
  let era := y.fdiv 400
  let yoe := y - era * 400
  let doy := (153 * (if 2 < m then m - 3 else m + 9) + 2) / 5 + d - 1
  let doe := yoe * 365 + yoe / 4 - yoe / 100 + doy
  era * 146097 + doe - 719468

/-- Broken-down UTC time: the `struct tm` fields the program uses, with
`year` already including the 1900 offset and `mon` 1-based. -/
structure TmDate where
  year : Int
  mon : Int
  mday : Int
  hour : Int
  minute : Int
  sec : Int
  deriving Repr, DecidableEq

/-- Model of `gmtime_r`: split a UTC epoch-second count into civil fields. -/
def gmtimeModel (t : Int) : TmDate :=
  let days := t.fdiv 86400
  let secs := t.emod 86400
  let c := civilFromDays days
  { year := c.1, mon := c.2.1, mday := c.2.2,
    hour := secs / 3600, minute := (secs % 3600) / 60, sec := secs % 60 }

/-- Model of `timegm` on a `struct tm` filled with possibly out-of-range
month values: months are normalized into the year exactly as `timegm`
normalizes its argument.  `tm.mon` here is 1-based (the C callers subtract 1
before the call and `timegm` adds it back through `tm_mon`). -/
def timegmModel (tm : TmDate) : Int :=
  let mon0 := tm.mon - 1
  let y := tm.year + mon0.fdiv 12
  let m := mon0.emod 12 + 1
  daysFromCivil y m tm.mday * 86400 + tm.hour * 3600 + tm.minute * 60 + tm.sec

/-! ## Scanner primitives for the `sscanf` formats in `utils.c` -/

/-- One `%Nd` conversion: skip whitespace, then read at most `width`
characters forming an optional sign and at least one digit.  Returns the
value and the rest of the input, or `none` when the conversion fails. -/
def scanIntW (width : Nat) (s : List Char) : Option (Int × List Char) :=
  let afterWs := s.dropWhile (fun c => cIsSpace c)
  let field := afterWs.take width
  let (neg, fieldDigits, signLen) :=
    match field with
    | '-' :: rest => (true, rest, 1)
    | '+' :: rest => (false, rest, 1)
    | rest => (false, rest, 0)
  let digits := fieldDigits.takeWhile (fun c => cIsDigit c)
  if digits.isEmpty then none
  else
    let mag : Nat := digits.foldl (fun acc c => acc * 10 + (c.toNat - '0'.toNat)) 0
    let v : Int := if neg then -(mag : Int) else (mag : Int)
    some (v, afterWs.drop (signLen + digits.length))

/-- A literal (non-whitespace) character in an `sscanf` format: the next
input character must match it exactly. -/
def scanLit (c : Char) (s : List Char) : Option (List Char) :=
  match s with
  | [] => none
  | c0 :: rest => if c0 = c then some rest else none

/-- A whitespace character in an `sscanf` format: skip any amount of
whitespace (including none). -/
def scanWs (s : List Char) : List Char :=
  s.dropWhile (fun c => cIsSpace c)

/-- One `%N[^stop]` conversion: read at most `width` characters different
from `stop`; fails when no character is read. -/
def scanCharSet (width : Nat) (stop : Char) (s : List Char) :
    Option (List Char × List Char) :=
  let taken := (s.take width).takeWhile (fun c => c ≠ stop)
  if taken.isEmpty then none else some (taken, s.drop taken.length)

/-! ## `utils.c`: timestamps, the product-mapping table, the rolling buffers -/

/-- Model of `parse_precise_timestamp` (utils.c:53): run
`sscanf(s, "%4d-%2d-%2d %2d:%2d:%2d", ...)`; on fewer than 6 conversions
return 0, otherwise adjust the fields as the C does (`tm_year -= 1900`,
`tm_mon -= 1`) and apply `timegm`. -/
def parse_precise_timestamp (s : String) : Int :=
  let r : Option TmDate := do
    let (y, s1) ← scanIntW 4 s.data
    let s2 ← scanLit '-' s1
    let (mo, s3) ← scanIntW 2 s2
    let s4 ← scanLit '-' s3
    let (d, s5) ← scanIntW 2 s4
    let s6 := scanWs s5
    let (h, s7) ← scanIntW 2 s6
    let s8 ← scanLit ':' s7
    let (mi, s9) ← scanIntW 2 s8
    let s10 ← scanLit ':' s9
    let (se, _) ← scanIntW 2 s10
    pure { year := y, mon := mo, mday := d, hour := h, minute := mi, sec := se }
  match r with
  | none => 0
  | some tm => timegmModel tm

/-- `snprintf`-style zero padding to a total width (C `%0Nd`); a minus sign
counts toward the width, as in C. -/
def fmtPad (width : Nat) (v : Int) : String :=
  let mag := v.natAbs
  let digits := toString mag
  let sign := if v < 0 then "-" else ""
  let used := sign.length + digits.length
  let zeros := String.mk (List.replicate (width - used) '0')
  sign ++ zeros ++ digits

/-- Model of `normalize_timestamp` (utils.c:148).  `none` models the C
function returning 0 with the output buffer unspecified; `some out` models a
1 return with `out` written.  All-digit inputs (including the empty string,
exactly as the C loop behaves) take the millisecond-epoch path through
`gmtime_r`; otherwise `sscanf(input, "%10[^T]T%15[^Z]", date, time)` must
convert both fields and the output is `date ++ " " ++ time ++ " UTC"`. -/
def normalize_timestamp (input : String) : Option String :=
  if input.data.all (fun c => cIsDigit c) then
    let millis := cAtoll input.data
    let seconds := millis / 1000
    let micros := (millis % 1000) * 1000
    let t := gmtimeModel seconds
    some (fmtPad 4 t.year ++ "-" ++ fmtPad 2 t.mon ++ "-" ++ fmtPad 2 t.mday ++ " " ++
      fmtPad 2 t.hour ++ ":" ++ fmtPad 2 t.minute ++ ":" ++ fmtPad 2 t.sec ++ "." ++
      fmtPad 6 micros ++ " UTC")
  else
    match scanCharSet 10 'T' input.data with
    | none => none
    | some (date, rest1) =>
      match scanLit 'T' rest1 with
      | none => none
      | some rest2 =>
        match scanCharSet 15 'Z' rest2 with
        | none => none
        | some (time, _) => some (String.mk date ++ " " ++ String.mk time ++ " UTC")

/-- The static table `product_mappings_arr` (utils.c:68), in order, without
the `{NULL, NULL}` sentinel. -/
def product_mappings_arr : List (String × String) :=
  [("tBTCUSD", "BTC-USD"),
   ("BTCUSDT", "BTC-USD"),
   ("market.btcusdt", "BTC-USD"),
   ("BTC-USDT", "BTC-USD"),
   ("BTC/USD", "BTC-USD"),
   ("ADAUSDT", "ADA-USD"),
   ("ICXUSDT", "ICX-USD"),
   ("ADA/USD", "ADA-USD"),
   ("ETHUSDT", "ETH-USD"),
   ("ETH/USD", "ETH-USD"),
   ("XBT/USD", "XBT-USD")]

/-- The mapping loop shared by `log_ticker_price` (utils.c:268) and
`log_trade_price` (utils.c:323): the first table key equal to the currency
wins (`strcmp == 0`), otherwise the currency passes through verbatim. -/
def mapProductSymbol (currency : String) : String :=
  match product_mappings_arr.find? (fun m => m.1 == currency) with
  | some m => m.2
  | none => currency

/-- A buffer entry: the jansson JSON object built by the log functions,
as an ordered association list of string fields. -/
abbrev BufEntry := List (String × String)

/-- `json_object_get(entry, "timestamp")` followed by `json_string_value`:
the first field named `timestamp`, if any. -/
def entryTimestamp (e : BufEntry) : Option String :=
  (e.find? (fun f => f.1 == "timestamp")).map (fun f => f.2)

/-- The keep-condition of the `trim_buffer` loop (utils.c:227): an entry
survives when it has a `timestamp` field and `difftime(now, entry_time)`
is at most 600, where `entry_time` is its `parse_precise_timestamp`. -/
def keepEntry (now : Int) (e : BufEntry) : Bool :=
  match entryTimestamp e with
  | none => false
  | some ts => !(now - parse_precise_timestamp ts > 600)

/-- Model of `trim_buffer` (utils.c:227): the in-place removal loop keeps
exactly the entries satisfying `keepEntry`, preserving order. -/
def trim_buffer (now : Int) (buffer : List BufEntry) : List BufEntry :=
  buffer.filter (fun e => keepEntry now e)

/-- The `TickerData` struct (exchange_websocket.h:31); all fields are
in-struct `char` arrays, zero-initialized to the empty string. -/
structure TickerData where
  price : String := ""
  currency : String := ""
  time_ms : String := ""
  timestamp : String := ""
  bid : String := ""
  ask : String := ""
  bid_qty : String := ""
  ask_qty : String := ""
  open_price : String := ""
  high_price : String := ""
  low_price : String := ""
  close_price : String := ""
  volume_24h : String := ""
  volume_30d : String := ""
  quote_volume : String := ""
  symbol : String := ""
  last_trade_time : String := ""
  last_trade_price : String := ""
  last_trade_size : String := ""
  trade_id : String := ""
  sequence : String := ""
  exchange : String := ""
  bid_whole : String := ""
  ask_whole : String := ""
  last_vol : String := ""
  vol_today : String := ""
  vwap_today : String := ""
  low_today : String := ""
  vwap_24h : String := ""
  high_today : String := ""
  open_today : String := ""
  deriving Repr, DecidableEq

/-- The formatted-timestamp computation shared by both log functions
(utils.c:275 and utils.c:330): on normalization failure the original
string is kept. -/
def formattedTimestamp (timestamp : String) : String :=
  match normalize_timestamp timestamp with
  | some out => out
  | none => timestamp

/-- The JSON object appended by `log_ticker_price` (utils.c:285). -/
def tickerEntry (td : TickerData) : BufEntry :=
  [("timestamp", formattedTimestamp td.timestamp),
   ("exchange", td.exchange),
   ("currency", mapProductSymbol td.currency),
   ("price", td.price),
   ("bid", td.bid),
   ("bid_qty", td.bid_qty),
   ("ask", td.ask),
   ("ask_qty", td.ask_qty),
   ("open_price", td.open_price),
   ("high_price", td.high_price),
   ("low_price", td.low_price),
   ("volume_24h", td.volume_24h),
   ("volume_30d", td.volume_30d),
   ("quote_volume", td.quote_volume),
   ("symbol", td.symbol),
   ("last_trade_time", td.last_trade_time),
   ("last_trade_price", td.last_trade_price),
   ("last_trade_size", td.last_trade_size),
   ("close_price", td.close_price),
   ("trade_id", td.trade_id)]

/-- Model of `log_ticker_price` (utils.c:258) acting on the ticker buffer:
map the currency, normalize the timestamp, append the entry, trim.  The two
`time(NULL)` reads of the C function are merged into the single parameter
`now`; the file handles are assumed open (`main.c` opens them at startup). -/
def log_ticker_price (now : Int) (buffer : List BufEntry) (td : TickerData) :
    List BufEntry :=
  trim_buffer now (buffer ++ [tickerEntry td])

/-- The JSON object appended by `log_trade_price` (utils.c:340). -/
def tradeEntry (timestamp exchange currency price size trade_id market_maker :
    String) : BufEntry :=
  [("timestamp", formattedTimestamp timestamp),
   ("exchange", exchange),
   ("currency", mapProductSymbol currency),
   ("price", price),
   ("size", size),
   ("trade_id", trade_id),
   ("market_maker", market_maker)]

/-- Model of `log_trade_price` (utils.c:315) acting on the trades buffer:
unlike the ticker path it drops the record up front when the parsed
formatted timestamp is older than 600 seconds (utils.c:338). -/
def log_trade_price (now : Int) (buffer : List BufEntry)
    (timestamp exchange currency price size trade_id market_maker : String) :
    List BufEntry :=
  let formatted := formattedTimestamp timestamp
  let entry_time := parse_precise_timestamp formatted
  if now - entry_time > 600 then buffer
  else
    trim_buffer now
      (buffer ++ [tradeEntry timestamp exchange currency price size trade_id market_maker])

/-! ## `exchange_reconnect.c`: retry ledger, backoff, health monitor

The ledger `retry_counts[MAX_EXCHANGES]` is a fixed array of
(exchange-name, retry-count) pairs, and `last_message_time[MAX_EXCHANGES]`
a parallel array of `time_t`.  Both are embedded as lists; a ledger state
pairs each key with its count, a liveness state pairs each key with its
last-message time. -/

/-- A `retry_counts` row: session key and retry count. -/
abbrev ExchangeRetry := String × Nat

/-- The initializer of `retry_counts` (exchange_reconnect.c:37): the 25
entries, in declaration order, each with count 0. -/
def retry_counts_init : List ExchangeRetry :=
  [("binance-websocket", 0),
   ("coinbase-websocket", 0),
   ("kraken-websocket", 0),
   ("bitfinex-websocket", 0),
   ("huobi-websocket-0", 0),
   ("huobi-websocket-1", 0),
   ("huobi-websocket-2", 0),
   ("huobi-websocket-3", 0),
   ("huobi-websocket-4", 0),
   ("huobi-websocket-5", 0),
   ("huobi-websocket-6", 0),
   ("huobi-websocket-7", 0),
   ("huobi-websocket-8", 0),
   ("huobi-websocket-9", 0),
   ("huobi-websocket-10", 0),
   ("huobi-websocket-11", 0),
   ("huobi-websocket-12", 0),
   ("huobi-websocket-13", 0),
   ("huobi-websocket-14", 0),
   ("huobi-websocket-15", 0),
   ("huobi-websocket-16", 0),
   ("huobi-websocket-17", 0),
   ("huobi-websocket-18", 0),
   ("huobi-websocket-19", 0),
   ("okx-websocket", 0)]

/-- Model of `get_exchange_index` (exchange_reconnect.c:71): index of the
first ledger row whose key equals the argument (`strcmp == 0`); `none`
models the C return value -1. -/
def get_exchange_index (ledger : List ExchangeRetry) (exchange : String) :
    Option Nat :=
  match ledger with
  | [] => none
  | row :: rest =>
    if row.1 = exchange then some 0
    else (get_exchange_index rest exchange).map (· + 1)

/-- The venue-connection calls `connect_to_*` reachable from
`schedule_reconnect`. -/
inductive ConnectTarget where
  | binance
  | coinbase
  | kraken
  | bitfinex
  | huobi (chunk : Int)
  | okx
  deriving Repr, DecidableEq

/-- The dispatch chain at the end of `schedule_reconnect`
(exchange_reconnect.c:95): four exact `strcmp` matches, then
`strncmp(exchange, "huobi-websocket-", 17) == 0` — note the length 17
against the 16-character literal, so this compares the NUL terminator of
the literal as well — then the exact `okx-websocket` match.  `none` means
no `connect_to_*` call is made. -/
def reconnectDispatch (exchange : String) : Option ConnectTarget :=
  if cStrcmpEq exchange.data "binance-websocket".data then some .binance
  else if cStrcmpEq exchange.data "coinbase-websocket".data then some .coinbase
  else if cStrcmpEq exchange.data "kraken-websocket".data then some .kraken
  else if cStrcmpEq exchange.data "bitfinex-websocket".data then some .bitfinex
  else if cStrncmpEq exchange.data "huobi-websocket-".data 17 then
    some (.huobi (cAtollStr (cSuffix exchange 17)))
  else if cStrcmpEq exchange.data "okx-websocket".data then some .okx
  else none

/-- Model of `schedule_reconnect` (exchange_reconnect.c:81).  `none` models
the early `[ERROR] Unknown exchange` return.  Otherwise the result carries
the seconds slept (`min(count, 10)` computed before the increment), the
ledger with that row's count incremented, and the `connect_to_*` call made
by the dispatch chain (if any). -/
def schedule_reconnect (ledger : List ExchangeRetry) (exchange : String) :
    Option (Nat × List ExchangeRetry × Option ConnectTarget) :=
  match get_exchange_index ledger exchange with
  | none => none
  | some index =>
    let row := ledger.getD index ("", 0)
    let wait_time := min row.2 10
    some (wait_time, ledger.set index (row.1, row.2 + 1), reconnectDispatch exchange)

/-- The retry-count reset in the `LWS_CALLBACK_CLIENT_ESTABLISHED` branch
(exchange_websocket.c:499): a found row is zeroed, an unknown protocol
leaves the ledger unchanged. -/
def resetRetryOnEstablished (ledger : List ExchangeRetry) (protocol : String) :
    List ExchangeRetry :=
  match get_exchange_index ledger protocol with
  | none => ledger
  | some index =>
    let row := ledger.getD index ("", 0)
    ledger.set index (row.1, 0)

/-- `NO_DATA_TIMEOUT` (exchange_reconnect.c:33). -/
def NO_DATA_TIMEOUT : Int := 60

/-- `HEALTH_CHECK_INTERVAL` (exchange_reconnect.c:34). -/
def HEALTH_CHECK_INTERVAL : Int := 30

/-- Liveness state: each ledger key paired with its `last_message_time`
value (0 = never received a message, as in the C initializer). -/
abbrev LivenessState := List (String × Int)

/-- One iteration of the `monitor_exchange_health` scan loop
(exchange_reconnect.c:116) on a single entry: entries with time 0 are
skipped; a stale entry (`now - t > NO_DATA_TIMEOUT`) is fired and its time
set to `now`; the rest are left alone. -/
def scanEntry (now : Int) (e : String × Int) : (String × Int) × Bool :=
  if e.2 = 0 then (e, false)
  else if now - e.2 > NO_DATA_TIMEOUT then ((e.1, now), true)
  else (e, false)

/-- One full pass of the `monitor_exchange_health` loop at wall-clock `now`:
the updated liveness state and, in scan order, the session keys for which
`schedule_reconnect` was requested. -/
def monitorScan (now : Int) (st : LivenessState) : LivenessState × List String :=
  (st.map (fun e => (scanEntry now e).1),
   (st.filter (fun e => (scanEntry now e).2)).map (fun e => e.1))

/-- The `last_message_time[idx] = time(NULL)` update at the top of
`LWS_CALLBACK_CLIENT_RECEIVE` (exchange_websocket.c:512): only performed
when `get_exchange_index` finds the protocol. -/
def receiveTouch (ledgerKeys : List ExchangeRetry) (st : LivenessState)
    (protocol : String) (now : Int) : LivenessState :=
  match get_exchange_index ledgerKeys protocol with
  | none => st
  | some index =>
    let row := st.getD index ("", 0)
    st.set index (row.1, now)

/-! ## `exchange_websocket.c`: protocol table and the established branch -/

/-- The names of the `protocols[]` table (exchange_websocket.c:1014),
in order, without the NULL sentinel: 37 sessions. -/
def protocolNames : List String :=
  ["binance-websocket-0", "binance-websocket-1", "binance-websocket-2",
   "binance-websocket-3", "binance-websocket-4", "binance-websocket-5",
   "coinbase-websocket", "kraken-websocket", "bitfinex-websocket",
   "huobi-websocket-0", "huobi-websocket-1", "huobi-websocket-2",
   "huobi-websocket-3", "huobi-websocket-4", "huobi-websocket-5",
   "huobi-websocket-6", "huobi-websocket-7", "huobi-websocket-8",
   "huobi-websocket-9", "huobi-websocket-10", "huobi-websocket-11",
   "huobi-websocket-12", "huobi-websocket-13", "huobi-websocket-14",
   "huobi-websocket-15", "huobi-websocket-16", "huobi-websocket-17",
   "huobi-websocket-18", "huobi-websocket-19",
   "okx-websocket-0", "okx-websocket-1", "okx-websocket-2", "okx-websocket-3",
   "okx-websocket-4", "okx-websocket-5", "okx-websocket-6", "okx-websocket-7"]

/-- The chunk index computed in the Binance established branch
(exchange_websocket.c:382): guarded by
`strncmp(protocol, "binance-websocket-", 18) == 0`, then
`atoi(protocol + 19)` — one character past the first digit. -/
def binanceChunkIndex (protocol : String) : Option Int :=
  if cStrncmpEq protocol.data "binance-websocket-".data 18 then
    some (cAtollStr (cSuffix protocol 19))
  else none

/-- The chunk index computed in the Huobi established branch
(exchange_websocket.c:411): guarded by
`strncmp(protocol, "huobi-websocket-", 16) == 0`, then
`atoi(protocol + 17)` — one character past the first digit. -/
def huobiChunkIndex (protocol : String) : Option Int :=
  if cStrncmpEq protocol.data "huobi-websocket-".data 16 then
    some (cAtollStr (cSuffix protocol 17))
  else none

/-- The chunk index computed in the OKX established branch
(exchange_websocket.c:468): guarded by
`strncmp(protocol, "okx-websocket-", 14) == 0`, then
`atoi(protocol + 15)` — one character past the first digit. -/
def okxChunkIndex (protocol : String) : Option Int :=
  if cStrncmpEq protocol.data "okx-websocket-".data 14 then
    some (cAtollStr (cSuffix protocol 15))
  else none

/-- The `snprintf` filename for the Huobi subscription file
(exchange_websocket.c:413). -/
def huobiChunkFile (protocol : String) : Option String :=
  (huobiChunkIndex protocol).map
    (fun i => "currency_text_files/huobi_currency_chunk_" ++ toString i ++ ".txt")

/-- The `snprintf` filename for the Binance subscription file
(exchange_websocket.c:385). -/
def binanceChunkFile (protocol : String) : Option String :=
  (binanceChunkIndex protocol).map
    (fun i => "currency_text_files/binance_currency_chunk_trades_" ++ toString i ++ ".txt")

/-- The two `snprintf` filenames for the OKX subscription files
(exchange_websocket.c:471). -/
def okxChunkFiles (protocol : String) : Option (String × String) :=
  (okxChunkIndex protocol).map
    (fun i => ("currency_text_files/okx_currency_chunk_" ++ toString i ++ ".txt",
               "currency_text_files/okx_currency_chunk_trades_" ++ toString i ++ ".txt"))

/-! ### Kraken chunked subscription (`build_kraken_subscription_from_file`) -/

/-- The chunking performed by the outer loop of
`build_kraken_subscription_from_file` (exchange_websocket.c:120):
`for (i = 0; i < total; i += chunk_size)` slices `[i, min(i+chunk_size,
total))`.  A chunk size of 0 would loop forever in C; it never occurs
(the only call passes 100). -/
def chunksOf : Nat → List String → List (List String)
  | _, [] => []
  | 0, _ :: _ => []
  | cs + 1, a :: rest =>
    (a :: rest).take (cs + 1) :: chunksOf (cs + 1) ((a :: rest).drop (cs + 1))
termination_by _ l => l.length
decreasing_by
  simp [List.length_drop]
  omega

/-- One Kraken subscribe frame: the channel written into the
`"subscription": ... "name"` slot of the `snprintf` template
(exchange_websocket.c:147) and the pair list serialized into the
`"pair"` slot. -/
structure KrakenFrame where
  channel : String
  pairs : List String
  deriving Repr, DecidableEq

/-- The frames emitted by `build_kraken_subscription_from_file`: for every
chunk, one frame per channel in the order of
`const char *channels[] = { "ticker", "trade" }` (exchange_websocket.c:136). -/
def krakenSubscriptionFrames (pairList : List String) (chunkSize : Nat) :
    List KrakenFrame :=
  (chunksOf chunkSize pairList).flatMap
    (fun c => [{ channel := "ticker", pairs := c }, { channel := "trade", pairs := c }])

/-- Observable actions of the Kraken established branch. -/
inductive KrakenAction where
  | pauseUs (usec : Nat)
  | send (frame : KrakenFrame)
  deriving Repr, DecidableEq

/-- The `kraken-websocket` case of `LWS_CALLBACK_CLIENT_ESTABLISHED`
(exchange_websocket.c:399): `usleep(200000)` and then the chunked frames
built from the parsed pair file, chunk size 100. -/
def krakenEstablishedActions (pairList : List String) : List KrakenAction :=
  .pauseUs 200000 :: (krakenSubscriptionFrames pairList 100).map .send

/-! ### `json_parser.c` and the jansson values used by the Kraken branch -/

/-- Model of `extract_order_data` (declared in json_parser.h:30 and
implemented as the identical-contract `extract_price` in json_parser.c:29):
find the key with `strstr`, then copy the characters up to the next `"`
(`strcspn`), truncated to `dest_size - 1`. -/
def extract_order_data (json key : String) (destSize : Nat) : Option String :=
  match strstrIdx? json.data key.data with
  | none => none
  | some i =>
    let pos := json.data.drop (i + key.data.length)
    let grabbed := pos.takeWhile (fun c => c ≠ '"')
    some (String.mk (grabbed.take (destSize - 1)))

/-- jansson JSON values, as far as the program inspects them. -/
inductive Json where
  | str : String → Json
  | num : Int → Json
  | arr : List Json → Json
  | obj : List (String × Json) → Json

/-- `json_array_get`: NULL (`none`) on a non-array or an out-of-range
index. -/
def jArrGet : Option Json → Nat → Option Json
  | some (.arr xs), i => xs.get? i
  | _, _ => none

/-- `json_object_get`: NULL (`none`) on a non-object or a missing key. -/
def jObjGet : Option Json → String → Option Json
  | some (.obj fs), k => (fs.find? (fun f => f.1 == k)).map (fun f => f.2)
  | _, _ => none

/-- `json_is_string` combined with `json_string_value`. -/
def jStr? : Option Json → Option String
  | some (.str s) => some s
  | _ => none

/-- `strncpy(dst, src, size - 1)` into a zero-filled `char dst[size]`:
the source truncated to `size - 1` characters. -/
def cFieldCopy (size : Nat) (src : String) : String :=
  strTake src (size - 1)

/-- A guarded field copy `if (json_is_string(x)) strncpy(dst, ...)`:
the destination keeps its previous value when the check fails. -/
def jFieldCopy (size : Nat) (x : Option Json) (dflt : String) : String :=
  match jStr? x with
  | some s => cFieldCopy size s
  | none => dflt

/-- `strrchr(s, c)`: index of the last occurrence. -/
def strrchrIdx? (s : List Char) (c : Char) : Option Nat :=
  match strstrIdx? s.reverse [c] with
  | none => none
  | some j => some (s.length - 1 - j)

/-- The backward walk of the Kraken currency scan
(exchange_websocket.c:739): starting left of the closing quote, step left
while above the start of the message and not on a `"`. -/
def prevQuoteStop (chars : List Char) : Nat → Nat
  | 0 => 0
  | j + 1 => if chars.getD (j + 1) ' ' = '"' then j + 1 else prevQuoteStop chars j

/-- The Kraken currency extraction (exchange_websocket.c:735): the text
between the last two `"` characters of the raw frame, copied only when it
fits the 32-byte `currency` field. -/
def krakenCurrencyFromRaw (raw : String) (dflt : String) : String :=
  match strrchrIdx? raw.data '"' with
  | none => dflt
  | some lastQ =>
    let start := if lastQ = 0 then 0 else prevQuoteStop raw.data (lastQ - 1) + 1
    let len := lastQ - start
    if len < 32 then String.mk ((raw.data.drop start).take len) else dflt

/-- The Kraken ticker portion of `LWS_CALLBACK_CLIENT_RECEIVE`
(exchange_websocket.c:623): the branch returns early (emitting no ticker)
when the raw text contains `"trade"` and parses as an array of length at
least 4 (the trade path), or when it contains the heartbeat event;
otherwise it zero-initializes a `TickerData` with exchange `Kraken`, fills
the quote fields from the parsed frame (`qty_found` tracks whether the
frame parsed as an array of length at least 4), overwrites the price from
the raw text, and emits the ticker only when that extraction succeeded and
`qty_found` survived.  `root` is the `json_loads` result for the raw text;
`nowTs` is the `get_timestamp` wall-clock string. -/
def krakenReceiveTicker (raw : String) (root : Option Json) (nowTs : String) :
    Option TickerData :=
  let isArrGe4 : Bool :=
    match root with
    | some (.arr xs) => decide (4 ≤ xs.length)
    | _ => false
  if (strstrIdx? raw.data "\"trade\"".data).isSome && isArrGe4 then none
  else if (strstrIdx? raw.data "\"event\":\"heartbeat\"".data).isSome then none
  else
    let base : TickerData := { exchange := cFieldCopy 32 "Kraken" }
    let (td0, qty_found) :=
      match root with
      | some (.arr xs) =>
        if xs.length < 4 then (base, false)
        else
          let o1 := jArrGet (some (.arr xs)) 1
          let b := jObjGet o1 "b"
          let a := jObjGet o1 "a"
          let c := jObjGet o1 "c"
          let v := jObjGet o1 "v"
          let p := jObjGet o1 "p"
          let l := jObjGet o1 "l"
          let h := jObjGet o1 "h"
          let o := jObjGet o1 "o"
          ({ base with
             bid := jFieldCopy 32 (jArrGet b 0) base.bid,
             ask := jFieldCopy 32 (jArrGet a 0) base.ask,
             bid_whole := jFieldCopy 32 (jArrGet b 1) base.bid_whole,
             bid_qty := jFieldCopy 32 (jArrGet b 2) base.bid_qty,
             ask_whole := jFieldCopy 32 (jArrGet a 1) base.ask_whole,
             ask_qty := jFieldCopy 32 (jArrGet a 2) base.ask_qty,
             price := jFieldCopy 32 (jArrGet c 0) base.price,
             last_vol := jFieldCopy 32 (jArrGet c 1) base.last_vol,
             vol_today := jFieldCopy 32 (jArrGet v 0) base.vol_today,
             volume_24h := jFieldCopy 32 (jArrGet v 1) base.volume_24h,
             vwap_today := jFieldCopy 32 (jArrGet p 0) base.vwap_today,
             vwap_24h := jFieldCopy 32 (jArrGet p 1) base.vwap_24h,
             low_today := jFieldCopy 32 (jArrGet l 0) base.low_today,
             low_price := jFieldCopy 32 (jArrGet l 1) base.low_price,
             high_today := jFieldCopy 32 (jArrGet h 0) base.high_today,
             high_price := jFieldCopy 32 (jArrGet h 1) base.high_price,
             open_today := jFieldCopy 32 (jObjGet o "o") base.open_today }, true)
      | _ => (base, false)
    match extract_order_data raw "\"c\":[\"" 32 with
    | none => none
    | some priceText =>
      if qty_found then
        some { td0 with
               price := priceText,
               currency := krakenCurrencyFromRaw raw td0.currency,
               timestamp := nowTs }
      else none

/-- The literal Kraken frame of scenario S3 (spec section 8), as raw text.
Braces are written with their character codes to keep the embedding
readable by tooling; the content is byte-for-byte the frame of S3. -/
def s3FrameRaw : String :=
  "[340,\x7b\"a\":[\"35002\",\"1\",\"1.5\"],\"b\":[\"35001\",\"2\",\"2.0\"]," ++
  "\"c\":[\"35001.5\",\"0.1\"],\"v\":[\"10\",\"20\"],\"p\":[\"34500\",\"34600\"]," ++
  "\"l\":[\"33000\",\"33500\"],\"h\":[\"35500\",\"36000\"]," ++
  "\"o\":\x7b\"o\":\"34000\"\x7d\x7d,\"ticker\",\"XBT/USD\"]"

/-- The jansson parse of `s3FrameRaw` (what `json_loads` produces on it). -/
def s3FrameJson : Json :=
  .arr
    [.num 340,
     .obj
       [("a", .arr [.str "35002", .str "1", .str "1.5"]),
        ("b", .arr [.str "35001", .str "2", .str "2.0"]),
        ("c", .arr [.str "35001.5", .str "0.1"]),
        ("v", .arr [.str "10", .str "20"]),
        ("p", .arr [.str "34500", .str "34600"]),
        ("l", .arr [.str "33000", .str "33500"]),
        ("h", .arr [.str "35500", .str "36000"]),
        ("o", .obj [("o", .str "34000")])],
     .str "ticker",
     .str "XBT/USD"]

/-! ### Event traces over the liveness state -/

/-- The callback events that touch the liveness state: a message arriving
on a session's connection, and one pass of the supervisor loop. -/
inductive WsEvent where
  | recv (protocol : String) (t : Int)
  | healthScan (now : Int)

/-- One event against the liveness state; the second component lists the
sessions for which the event requested `schedule_reconnect`. -/
def wsStep (st : LivenessState) : WsEvent → LivenessState × List String
  | .recv p t => (receiveTouch retry_counts_init st p t, [])
  | .healthScan now => monitorScan now st

/-- A whole event trace, accumulating every reconnect request in order. -/
def runEvents (st : LivenessState) : List WsEvent → LivenessState × List String
  | [] => (st, [])
  | e :: rest =>
    let s1 := wsStep st e
    let s2 := runEvents s1.1 rest
    (s2.1, s1.2 ++ s2.2)

/-- The startup liveness state: `last_message_time[MAX_EXCHANGES] = {0}`
(exchange_reconnect.c:68), keyed like the ledger. -/
def initialLiveness : LivenessState :=
  retry_counts_init.map (fun r => (r.1, 0))

/-! ## Helper lemmas -/

theorem getD_map_of_lt {α β : Type} (f : α → β) (l : List α) (i : Nat)
    (d₀ : α) (d : β) (h : i < l.length) :
    (l.map f).getD i d = f (l.getD i d₀) := by
  rw [List.getD_eq_getElem _ _ (by simpa using h), List.getD_eq_getElem _ _ h]
  simp

theorem getD_set_self {α : Type} (l : List α) (i : Nat) (a : α) (d : α)
    (h : i < l.length) :
    (l.set i a).getD i d = a := by
  rw [List.getD_eq_getElem _ _ (by simpa using h)]
  simp [List.getElem_set]

theorem getD_set_ne {α : Type} (l : List α) (i j : Nat) (a : α) (d : α)
    (hne : j ≠ i) :
    (l.set i a).getD j d = l.getD j d := by
  by_cases h : j < l.length
  · rw [List.getD_eq_getElem _ _ (by simpa using h), List.getD_eq_getElem _ _ h]
    simp [List.getElem_set, (Ne.symm hne)]
  · rw [List.getD_eq_default _ _ (by simpa using Nat.le_of_not_lt h),
      List.getD_eq_default _ _ (Nat.le_of_not_lt h)]

theorem set_getD_self {α : Type} (l : List α) (i : Nat) (d : α)
    (h : i < l.length) :
    l.set i (l.getD i d) = l := by
  induction l generalizing i with
  | nil => simp at h
  | cons a as ih =>
    cases i with
    | zero => simp
    | succ j => simpa using ih j (by simpa using h)

theorem get_exchange_index_lt {ledger : List ExchangeRetry} {e : String}
    {i : Nat} (h : get_exchange_index ledger e = some i) : i < ledger.length := by
  induction ledger generalizing i with
  | nil => simp [get_exchange_index] at h
  | cons row rest ih =>
    rw [get_exchange_index] at h
    by_cases hr : row.1 = e
    · rw [if_pos hr] at h
      simp at h
      simp [← h]
    · rw [if_neg hr] at h
      simp at h
      obtain ⟨j, hj, rfl⟩ := h
      have := ih hj
      simpa using Nat.succ_lt_succ this

theorem get_exchange_index_key {ledger : List ExchangeRetry} {e : String}
    {i : Nat} (d : ExchangeRetry) (h : get_exchange_index ledger e = some i) :
    (ledger.getD i d).1 = e := by
  induction ledger generalizing i with
  | nil => simp [get_exchange_index] at h
  | cons row rest ih =>
    rw [get_exchange_index] at h
    by_cases hr : row.1 = e
    · rw [if_pos hr] at h
      simp at h
      subst h
      simpa using hr
    · rw [if_neg hr] at h
      simp at h
      obtain ⟨j, hj, rfl⟩ := h
      simpa using ih hj

theorem takeWhile_append_of_all {p : Char → Bool} {pre rest : List Char}
    (h : ∀ c ∈ pre, p c) :
    (pre ++ rest).takeWhile p = pre ++ rest.takeWhile p := by
  induction pre with
  | nil => simp
  | cons c cs ih =>
    have hc : p c := h c (by simp)
    simp only [List.cons_append, List.takeWhile_cons, hc]
    simp [ih (fun x hx => h x (by simp [hx]))]

theorem get_exchange_index_set_key {ledger : List ExchangeRetry} {i : Nat}
    (a : ExchangeRetry) (h : i < ledger.length)
    (hk : a.1 = (ledger.getD i ("", 0)).1) (e : String) :
    get_exchange_index (ledger.set i a) e = get_exchange_index ledger e := by
  induction ledger generalizing i with
  | nil => simp at h
  | cons row rest ih =>
    cases i with
    | zero =>
      simp only [List.getD_cons_zero] at hk
      simp only [List.set_cons_zero]
      rw [get_exchange_index, get_exchange_index, hk]
    | succ j =>
      simp only [List.getD_cons_succ] at hk
      simp only [List.set_cons_succ]
      rw [get_exchange_index, get_exchange_index, ih (by simpa using h) hk]

/-! ## Claims -/

/-- Claim C6: the canonical symbol mapper is idempotent — the first-match
lookup in `product_mappings_arr` applied twice equals the lookup applied
once, for every symbol token. -/
theorem claim_C6_mapper_idempotent (s : String) :
    mapProductSymbol (mapProductSymbol s) = mapProductSymbol s := by
  have fixed : ∀ m ∈ product_mappings_arr, mapProductSymbol m.2 = m.2 := by decide
  cases h : product_mappings_arr.find? (fun m => m.1 == s) with
  | none =>
    have hs : mapProductSymbol s = s := by rw [mapProductSymbol, h]
    rw [hs, hs]
  | some m =>
    have hs : mapProductSymbol s = m.2 := by rw [mapProductSymbol, h]
    rw [hs]
    exact fixed m (List.mem_of_find?_eq_some h)

/-- Claim C9: the chunk index parsed out of a chunked protocol name starts
one character past the first digit (`protocol + 19` for Binance,
`protocol + 17` for Huobi, `protocol + 15` for OKX): every single-digit
suffix therefore yields index 0, and of a two-digit suffix only the
second digit survives; in particular `huobi-websocket-3` and
`huobi-websocket-0` both open `huobi_currency_chunk_0.txt`, while
`huobi-websocket-15` opens `huobi_currency_chunk_5.txt`. -/
theorem claim_C9_chunk_index_off_by_one :
    (∀ d ∈ "0123456789".data,
      huobiChunkIndex (String.mk ("huobi-websocket-".data ++ [d])) = some 0 ∧
      binanceChunkIndex (String.mk ("binance-websocket-".data ++ [d])) = some 0 ∧
      okxChunkIndex (String.mk ("okx-websocket-".data ++ [d])) = some 0) ∧
    huobiChunkFile "huobi-websocket-3" =
      some "currency_text_files/huobi_currency_chunk_0.txt" ∧
    huobiChunkFile "huobi-websocket-0" =
      some "currency_text_files/huobi_currency_chunk_0.txt" ∧
    huobiChunkFile "huobi-websocket-15" =
      some "currency_text_files/huobi_currency_chunk_5.txt" ∧
    binanceChunkFile "binance-websocket-5" =
      some "currency_text_files/binance_currency_chunk_trades_0.txt" ∧
    okxChunkFiles "okx-websocket-7" =
      some ("currency_text_files/okx_currency_chunk_0.txt",
            "currency_text_files/okx_currency_chunk_trades_0.txt") := by
  decide

/-- Witness for claim C9 at the digit 7. -/
theorem claim_C9_chunk_index_off_by_one_witness :
    ('7' ∈ "0123456789".data) ∧
    huobiChunkIndex (String.mk ("huobi-websocket-".data ++ ['7'])) = some 0 :=
  ⟨by decide, (claim_C9_chunk_index_off_by_one.1 '7' (by decide)).1⟩

/-- Claim C1 (divergence witness): for the chunked Binance and OKX session
names the ledger lookup fails, so `schedule_reconnect` neither waits,
increments, nor reconnects; for a chunked Huobi name the ledger entry is
found and the count incremented, but the dispatch chain matches no venue
(its Huobi guard compares 17 characters against the 16-character prefix),
so no connection is re-established either. -/
theorem claim_C1_schedule_reconnect_divergence :
    get_exchange_index retry_counts_init "binance-websocket-0" = none ∧
    get_exchange_index retry_counts_init "okx-websocket-0" = none ∧
    schedule_reconnect retry_counts_init "binance-websocket-0" = none ∧
    schedule_reconnect retry_counts_init "okx-websocket-5" = none ∧
    get_exchange_index retry_counts_init "huobi-websocket-3" = some 7 ∧
    reconnectDispatch "huobi-websocket-3" = none ∧
    schedule_reconnect retry_counts_init "huobi-websocket-3" =
      some (0, retry_counts_init.set 7 ("huobi-websocket-3", 1), none) :=
  ⟨by decide, by decide, by decide, by decide, by decide, by decide, by decide⟩

/-- Claim C4: whenever `schedule_reconnect` finds the session's ledger
entry, it sleeps `min(retry_count at entry, 10)` seconds and increments
exactly that session's retry count by one (leaving every other row
untouched, so the count grows monotonically across Backoff entries),
while a successful connection establishment resets the count to zero. -/
theorem claim_C4_backoff_policy (ledger : List ExchangeRetry) (e : String)
    (i : Nat) (h : get_exchange_index ledger e = some i) :
    ∃ ledger',
      schedule_reconnect ledger e =
        some (min (ledger.getD i ("", 0)).2 10, ledger', reconnectDispatch e) ∧
      (ledger'.getD i ("", 0)).2 = (ledger.getD i ("", 0)).2 + 1 ∧
      (ledger'.getD i ("", 0)).1 = (ledger.getD i ("", 0)).1 ∧
      (∀ j, j ≠ i → ledger'.getD j ("", 0) = ledger.getD j ("", 0)) ∧
      ((resetRetryOnEstablished ledger' e).getD i ("", 0)).2 = 0 := by
  have hlt : i < ledger.length := get_exchange_index_lt h
  refine ⟨ledger.set i ((ledger.getD i ("", 0)).1, (ledger.getD i ("", 0)).2 + 1), ?_, ?_, ?_, ?_, ?_⟩
  · rw [schedule_reconnect, h]
  · rw [getD_set_self _ _ _ _ hlt]
  · rw [getD_set_self _ _ _ _ hlt]
  · intro j hj
    exact getD_set_ne _ _ _ _ _ hj
  · have hkey :
        get_exchange_index
          (ledger.set i ((ledger.getD i ("", 0)).1, (ledger.getD i ("", 0)).2 + 1)) e =
        get_exchange_index ledger e :=
      get_exchange_index_set_key
        ((ledger.getD i ("", 0)).1, (ledger.getD i ("", 0)).2 + 1) hlt rfl e
    rw [resetRetryOnEstablished, hkey, h]
    have hlt' : i < (ledger.set i ((ledger.getD i ("", 0)).1, (ledger.getD i ("", 0)).2 + 1)).length := by
      simpa using hlt
    rw [getD_set_self _ _ _ _ hlt']

/-- Witness for claim C4: the Kraken session sits at ledger index 2. -/
theorem claim_C4_backoff_policy_witness :
    get_exchange_index retry_counts_init "kraken-websocket" = some 2 ∧
    (∃ ledger',
      schedule_reconnect retry_counts_init "kraken-websocket" =
        some (min (retry_counts_init.getD 2 ("", 0)).2 10, ledger',
          reconnectDispatch "kraken-websocket") ∧
      (ledger'.getD 2 ("", 0)).2 = (retry_counts_init.getD 2 ("", 0)).2 + 1 ∧
      (ledger'.getD 2 ("", 0)).1 = (retry_counts_init.getD 2 ("", 0)).1 ∧
      (∀ j, j ≠ 2 → ledger'.getD j ("", 0) = retry_counts_init.getD j ("", 0)) ∧
      ((resetRetryOnEstablished ledger' "kraken-websocket").getD 2 ("", 0)).2 = 0) :=
  ⟨by decide, claim_C4_backoff_policy retry_counts_init "kraken-websocket" 2 (by decide)⟩

theorem scanEntry_fst_key (now : Int) (e : String × Int) :
    ((scanEntry now e).1).1 = e.1 := by
  rw [scanEntry]
  by_cases h0 : e.2 = 0
  · rw [if_pos h0]
  · by_cases hs : now - e.2 > NO_DATA_TIMEOUT
    · rw [if_neg h0, if_pos hs]
    · rw [if_neg h0, if_neg hs]

theorem scanEntry_refire_false (now : Int) (key : String) :
    (scanEntry (now + HEALTH_CHECK_INTERVAL) (key, now)).2 = false := by
  rw [scanEntry]
  by_cases hz : now = 0
  · rw [if_pos (show ((key, now) : String × Int).2 = 0 from hz)]
  · rw [if_neg (show ¬((key, now) : String × Int).2 = 0 from hz)]
    have hno : ¬(now + HEALTH_CHECK_INTERVAL - ((key, now) : String × Int).2 >
        NO_DATA_TIMEOUT) := by
      show ¬(now + HEALTH_CHECK_INTERVAL - now > NO_DATA_TIMEOUT)
      rw [HEALTH_CHECK_INTERVAL, NO_DATA_TIMEOUT]
      omega
    rw [if_neg hno]

theorem scanEntry_fired_iff (now : Int) (e : String × Int) :
    (scanEntry now e).2 = true ↔ (e.2 ≠ 0 ∧ now - e.2 > NO_DATA_TIMEOUT) := by
  rw [scanEntry]
  by_cases h0 : e.2 = 0
  · rw [if_pos h0]
    simp [h0]
  · by_cases hs : now - e.2 > NO_DATA_TIMEOUT
    · rw [if_neg h0, if_pos hs]
      simp [h0, hs]
    · rw [if_neg h0, if_neg hs]
      simp [h0, hs]

/-- Claim C3: a supervisor scan at wall-clock `now` visits every ledger
entry (the state keeps its length and every key); an entry fires exactly
when its last-message time is nonzero and older than `NO_DATA_TIMEOUT`;
a fired entry has a reconnect requested for its session key and its
last-message time set to `now`, so the loop's firing condition is false
for it on the following scan one `HEALTH_CHECK_INTERVAL` later; an entry
whose last-message time is 0 is skipped untouched and never fires. -/
theorem claim_C3_supervisor_scan (now : Int) (st : LivenessState) (i : Nat)
    (h : i < st.length) :
    ((monitorScan now st).1.length = st.length) ∧
    (((monitorScan now st).1.getD i ("", 0)).1 = (st.getD i ("", 0)).1) ∧
    ((scanEntry now (st.getD i ("", 0))).2 = true ↔
      ((st.getD i ("", 0)).2 ≠ 0 ∧ now - (st.getD i ("", 0)).2 > NO_DATA_TIMEOUT)) ∧
    ((st.getD i ("", 0)).2 ≠ 0 → now - (st.getD i ("", 0)).2 > NO_DATA_TIMEOUT →
      ((monitorScan now st).1.getD i ("", 0)).2 = now ∧
      (st.getD i ("", 0)).1 ∈ (monitorScan now st).2) ∧
    ((st.getD i ("", 0)).2 = 0 →
      (monitorScan now st).1.getD i ("", 0) = st.getD i ("", 0) ∧
      (scanEntry now (st.getD i ("", 0))).2 = false) ∧
    ((scanEntry now (st.getD i ("", 0))).2 = true →
      (scanEntry (now + HEALTH_CHECK_INTERVAL)
        ((monitorScan now st).1.getD i ("", 0))).2 = false) := by
  have hmapped :
      (monitorScan now st).1.getD i ("", 0) = (scanEntry now (st.getD i ("", 0))).1 :=
    getD_map_of_lt _ _ _ ("", 0) _ h
  refine ⟨by simp [monitorScan], ?_, scanEntry_fired_iff now _, ?_, ?_, ?_⟩
  · rw [hmapped, scanEntry_fst_key]
  · intro hne hstale
    have hfired : (scanEntry now (st.getD i ("", 0))).2 = true :=
      (scanEntry_fired_iff now _).mpr ⟨hne, hstale⟩
    constructor
    · rw [hmapped, scanEntry, if_neg hne, if_pos hstale]
    · have hm : st.getD i ("", 0) ∈ st := by
        rw [List.getD_eq_getElem _ _ h]
        exact List.getElem_mem ..
      exact List.mem_map_of_mem _ (List.mem_filter_of_mem hm hfired)
  · intro h0
    refine ⟨?_, by rw [scanEntry, if_pos h0]⟩
    rw [hmapped, scanEntry, if_pos h0]
  · intro hfired
    obtain ⟨hne, hstale⟩ := (scanEntry_fired_iff now _).mp hfired
    have hinner : (scanEntry now (st.getD i ("", 0))).1 =
        ((st.getD i ("", 0)).1, now) := by
      rw [scanEntry, if_neg hne, if_pos hstale]
    rw [hmapped, hinner]
    exact scanEntry_refire_false now _

/-- Witness for claim C3: a one-entry state whose Kraken session stalled
100 seconds before the scan. -/
theorem claim_C3_supervisor_scan_witness :
    (0 < ([("kraken-websocket", (100 : Int))] : LivenessState).length) ∧
    (((monitorScan 200 [("kraken-websocket", 100)]).1.length =
        ([("kraken-websocket", (100 : Int))] : LivenessState).length) ∧
      ((((monitorScan 200 [("kraken-websocket", 100)]).1.getD 0 ("", 0)).1 =
        (([("kraken-websocket", (100 : Int))] : LivenessState).getD 0 ("", 0)).1)) ∧
      ((scanEntry 200 (([("kraken-websocket", (100 : Int))] : LivenessState).getD 0 ("", 0))).2 = true ↔
        ((([("kraken-websocket", (100 : Int))] : LivenessState).getD 0 ("", 0)).2 ≠ 0 ∧
          200 - (([("kraken-websocket", (100 : Int))] : LivenessState).getD 0 ("", 0)).2 > NO_DATA_TIMEOUT)) ∧
      ((([("kraken-websocket", (100 : Int))] : LivenessState).getD 0 ("", 0)).2 ≠ 0 →
        200 - (([("kraken-websocket", (100 : Int))] : LivenessState).getD 0 ("", 0)).2 > NO_DATA_TIMEOUT →
        (((monitorScan 200 [("kraken-websocket", 100)]).1.getD 0 ("", 0)).2 = 200 ∧
          (([("kraken-websocket", (100 : Int))] : LivenessState).getD 0 ("", 0)).1 ∈
            (monitorScan 200 [("kraken-websocket", 100)]).2)) ∧
      ((([("kraken-websocket", (100 : Int))] : LivenessState).getD 0 ("", 0)).2 = 0 →
        (monitorScan 200 [("kraken-websocket", 100)]).1.getD 0 ("", 0) =
          ([("kraken-websocket", (100 : Int))] : LivenessState).getD 0 ("", 0) ∧
        (scanEntry 200 (([("kraken-websocket", (100 : Int))] : LivenessState).getD 0 ("", 0))).2 = false) ∧
      ((scanEntry 200 (([("kraken-websocket", (100 : Int))] : LivenessState).getD 0 ("", 0))).2 = true →
        (scanEntry (200 + HEALTH_CHECK_INTERVAL)
          ((monitorScan 200 [("kraken-websocket", 100)]).1.getD 0 ("", 0))).2 = false)) :=
  ⟨by decide, claim_C3_supervisor_scan 200 [("kraken-websocket", 100)] 0 (by decide)⟩

theorem keepEntry_bound {now : Int} {e : BufEntry} (hk : keepEntry now e = true)
    (t0 : String) (ht : entryTimestamp e = some t0) :
    now - parse_precise_timestamp t0 ≤ 600 := by
  rw [keepEntry, ht] at hk
  simp at hk
  omega

theorem entryTimestamp_tradeEntry
    (ts exch cur price size tid mm : String) :
    entryTimestamp (tradeEntry ts exch cur price size tid mm) =
      some (formattedTimestamp ts) := rfl

/-- Claim C2 (amended): the ticker sink's buffer never holds an entry whose
parsed timestamp is over 600 seconds old after `log_ticker_price` (ticker
records are appended regardless of their own age; the trailing trim removes
a too-old one again); `log_trade_price` with a fresh record appends, trims,
and likewise leaves no over-age entry, while with a stale record it returns
the buffer entirely unchanged (no append, and also no trim); the trade
record itself is present after its own call exactly when its normalized,
parsed timestamp is at most 600 seconds old. -/
theorem claim_C2_rolling_retention (now : Int) (buffer : List BufEntry)
    (td : TickerData) (ts exch cur price size tid mm : String)
    (hfresh : tradeEntry ts exch cur price size tid mm ∉ buffer) :
    (∀ e ∈ log_ticker_price now buffer td, ∀ t0, entryTimestamp e = some t0 →
      now - parse_precise_timestamp t0 ≤ 600) ∧
    (now - parse_precise_timestamp (formattedTimestamp ts) ≤ 600 →
      ∀ e ∈ log_trade_price now buffer ts exch cur price size tid mm,
        ∀ t0, entryTimestamp e = some t0 → now - parse_precise_timestamp t0 ≤ 600) ∧
    (now - parse_precise_timestamp (formattedTimestamp ts) > 600 →
      log_trade_price now buffer ts exch cur price size tid mm = buffer) ∧
    (tradeEntry ts exch cur price size tid mm ∈
        log_trade_price now buffer ts exch cur price size tid mm ↔
      now - parse_precise_timestamp (formattedTimestamp ts) ≤ 600) := by
  refine ⟨?_, ?_, ?_, ?_⟩
  · intro e he t0 ht
    rw [log_ticker_price] at he
    exact keepEntry_bound (List.of_mem_filter he) t0 ht
  · intro hle e he t0 ht
    rw [log_trade_price, if_neg (by omega)] at he
    exact keepEntry_bound (List.of_mem_filter he) t0 ht
  · intro hgt
    rw [log_trade_price, if_pos hgt]
  · by_cases hold : now - parse_precise_timestamp (formattedTimestamp ts) > 600
    · rw [log_trade_price, if_pos hold]
      constructor
      · intro hmem
        exact absurd hmem hfresh
      · intro hle
        omega
    · rw [log_trade_price, if_neg hold]
      constructor
      · intro _
        omega
      · intro _
        rw [trim_buffer]
        refine List.mem_filter_of_mem (by simp) ?_
        rw [keepEntry, entryTimestamp_tradeEntry]
        simpa using hold

/-- Witness for claim C2: a fresh trade record into an empty buffer at the
matching wall-clock second. -/
theorem claim_C2_rolling_retention_witness :
    (tradeEntry "1700000000000" "Coinbase" "BTC-USD" "1" "2" "3" "f" ∉
      ([] : List BufEntry)) ∧
    ((∀ e ∈ log_ticker_price 1700000000 [] { currency := "BTCUSDT" }, ∀ t0,
        entryTimestamp e = some t0 →
        1700000000 - parse_precise_timestamp t0 ≤ 600) ∧
      (1700000000 - parse_precise_timestamp (formattedTimestamp "1700000000000") ≤ 600 →
        ∀ e ∈ log_trade_price 1700000000 [] "1700000000000" "Coinbase" "BTC-USD" "1" "2" "3" "f",
          ∀ t0, entryTimestamp e = some t0 →
            1700000000 - parse_precise_timestamp t0 ≤ 600) ∧
      (1700000000 - parse_precise_timestamp (formattedTimestamp "1700000000000") > 600 →
        log_trade_price 1700000000 [] "1700000000000" "Coinbase" "BTC-USD" "1" "2" "3" "f" = []) ∧
      (tradeEntry "1700000000000" "Coinbase" "BTC-USD" "1" "2" "3" "f" ∈
          log_trade_price 1700000000 [] "1700000000000" "Coinbase" "BTC-USD" "1" "2" "3" "f" ↔
        1700000000 - parse_precise_timestamp (formattedTimestamp "1700000000000") ≤ 600)) :=
  ⟨by decide,
   claim_C2_rolling_retention 1700000000 [] { currency := "BTCUSDT" }
     "1700000000000" "Coinbase" "BTC-USD" "1" "2" "3" "f" (by decide)⟩

/-- Counterexample for claim C2 as frozen: when the incoming trade record is
itself stale, `log_trade_price` returns without trimming, so an entry whose
parsed timestamp is far older than 600 seconds survives the call. -/
theorem claim_C2_rolling_retention_counterexample :
    log_trade_price 1000000 [[("timestamp", "1970-01-01 00:00:00")]]
        "0" "E" "C" "P" "S" "I" "M" =
      [[("timestamp", "1970-01-01 00:00:00")]] ∧
    entryTimestamp [("timestamp", "1970-01-01 00:00:00")] =
      some "1970-01-01 00:00:00" ∧
    (1000000 : Int) - parse_precise_timestamp "1970-01-01 00:00:00" > 600 := by
  refine ⟨by decide, by decide, by decide⟩

set_option maxRecDepth 10000 in
/-- Counterexample for claim C7 as frozen: the mapping table does contain an
entry for the exact token `XBT/USD` (utils.c:82), so the sink maps the S3
ticker's symbol to `XBT-USD` rather than passing it through unchanged. -/
theorem claim_C7_s3_ticker_counterexample :
    ("XBT/USD", "XBT-USD") ∈ product_mappings_arr ∧
    mapProductSymbol "XBT/USD" = "XBT-USD" ∧
    (krakenReceiveTicker s3FrameRaw (some s3FrameJson) "TS").map
      (fun td => mapProductSymbol td.currency) = some "XBT-USD" ∧
    "XBT-USD" ≠ "XBT/USD" := by
  refine ⟨by decide, by decide, by decide, by decide⟩

set_option maxRecDepth 10000 in
/-- Claim C7 (amended): on the literal S3 Kraken frame the receive branch
emits a ticker with exchange `Kraken`, frame symbol `XBT/USD`, bid `35001`,
ask `35002`, bid-qty `2.0` and ask-qty `1.5` (index 2 of the `b`/`a`
sub-arrays), and price `35001.5`; the sink then maps the symbol through the
table's `XBT/USD` entry, so the logged record carries `XBT-USD`. -/
theorem claim_C7_s3_ticker (nowTs : String) :
    krakenReceiveTicker s3FrameRaw (some s3FrameJson) nowTs =
      some { exchange := "Kraken", currency := "XBT/USD", bid := "35001",
             ask := "35002", bid_whole := "2", bid_qty := "2.0",
             ask_whole := "1", ask_qty := "1.5", price := "35001.5",
             last_vol := "0.1", vol_today := "10", volume_24h := "20",
             vwap_today := "34500", vwap_24h := "34600", low_today := "33000",
             low_price := "33500", high_today := "35500", high_price := "36000",
             open_today := "34000", timestamp := nowTs } ∧
    mapProductSymbol "XBT/USD" = "XBT-USD" :=
  ⟨by rfl, by decide⟩

theorem chunksOf_length (cs : Nat) :
    ∀ (n : Nat) (l : List String), l.length ≤ n →
      (chunksOf (cs + 1) l).length = (l.length + cs) / (cs + 1) := by
  intro n
  induction n with
  | zero =>
    intro l hl
    have hnil : l = [] := List.eq_nil_of_length_eq_zero (Nat.le_zero.mp hl)
    subst hnil
    simp only [chunksOf, List.length_nil, Nat.zero_add]
    exact (Nat.div_eq_of_lt (by omega)).symm
  | succ m ih =>
    intro l hl
    match l with
    | [] =>
      simp only [chunksOf, List.length_nil, Nat.zero_add]
      exact (Nat.div_eq_of_lt (by omega)).symm
    | a :: rest =>
      rw [chunksOf]
      simp only [List.length_cons]
      have hdlen : ((a :: rest).drop (cs + 1)).length = rest.length - cs := by
        simp only [List.length_drop, List.length_cons]
        omega
      have hlcons : (a :: rest).length ≤ m + 1 := hl
      simp only [List.length_cons] at hlcons
      rw [ih ((a :: rest).drop (cs + 1)) (by rw [hdlen]; omega)]
      rw [hdlen]
      have hr : rest.length + 1 + cs = rest.length + (cs + 1) := by omega
      rw [hr, Nat.add_div_right _ (Nat.succ_pos cs)]
      by_cases hc : cs ≤ rest.length
      · have : rest.length - cs + cs = rest.length := by omega
        rw [this]
      · have h1 : rest.length - cs = 0 := by omega
        rw [h1, Nat.zero_add, Nat.div_eq_of_lt (by omega),
          Nat.div_eq_of_lt (by omega)]

theorem chunksOf_getD (cs : Nat) :
    ∀ (n : Nat) (l : List String) (k : Nat), l.length ≤ n →
      k < (chunksOf (cs + 1) l).length →
      (chunksOf (cs + 1) l).getD k [] = (l.drop ((cs + 1) * k)).take (cs + 1) := by
  intro n
  induction n with
  | zero =>
    intro l k hl hk
    have hnil : l = [] := List.eq_nil_of_length_eq_zero (Nat.le_zero.mp hl)
    subst hnil
    rw [chunksOf] at hk
    simp at hk
  | succ m ih =>
    intro l k hl hk
    match l with
    | [] =>
      rw [chunksOf] at hk
      simp at hk
    | a :: rest =>
      rw [chunksOf] at hk ⊢
      cases k with
      | zero => simp
      | succ j =>
        simp only [List.getD_cons_succ]
        have hlcons : (a :: rest).length ≤ m + 1 := hl
        simp only [List.length_cons] at hlcons
        have hdlen : ((a :: rest).drop (cs + 1)).length ≤ m := by
          simp only [List.length_drop, List.length_cons]
          omega
        rw [ih ((a :: rest).drop (cs + 1)) j hdlen
          (Nat.lt_of_succ_lt_succ (by simpa using hk))]
        rw [List.drop_drop]
        have harith : cs + 1 + (cs + 1) * j = (cs + 1) * (j + 1) := by ring
        rw [harith]

theorem flatMap_two_length {α β : Type} (f g : α → β) (l : List α) :
    (l.flatMap (fun c => [f c, g c])).length = 2 * l.length := by
  induction l with
  | nil => simp
  | cons c rest ih =>
    simp only [List.flatMap_cons, List.length_append, ih]
    simp
    omega

theorem flatMap_two_getD_even {α β : Type} (f g : α → β) (d : β) (d' : α) :
    ∀ (l : List α) (k : Nat), k < l.length →
      (l.flatMap (fun c => [f c, g c])).getD (2 * k) d = f (l.getD k d') := by
  intro l
  induction l with
  | nil => intro k hk; simp at hk
  | cons c rest ih =>
    intro k hk
    cases k with
    | zero => simp
    | succ j =>
      have h2 : 2 * (j + 1) = (2 * j + 1) + 1 := by omega
      rw [h2]
      simp only [List.flatMap_cons, List.cons_append, List.getD_cons_succ,
        List.nil_append, List.getD_cons_succ]
      exact ih j (by simpa using Nat.lt_of_succ_lt_succ hk)

theorem flatMap_two_getD_odd {α β : Type} (f g : α → β) (d : β) (d' : α) :
    ∀ (l : List α) (k : Nat), k < l.length →
      (l.flatMap (fun c => [f c, g c])).getD (2 * k + 1) d = g (l.getD k d') := by
  intro l
  induction l with
  | nil => intro k hk; simp at hk
  | cons c rest ih =>
    intro k hk
    cases k with
    | zero => simp
    | succ j =>
      have h2 : 2 * (j + 1) + 1 = ((2 * j + 1) + 1) + 1 := by omega
      rw [h2]
      simp only [List.flatMap_cons, List.cons_append, List.getD_cons_succ,
        List.nil_append, List.getD_cons_succ]
      exact ih j (by simpa using Nat.lt_of_succ_lt_succ hk)

/-- Claim C8: after a Kraken connection is established the handler first
pauses 200 ms, then sends ceil(N/100) chunks; every chunk produces exactly
two subscribe frames, the ticker frame strictly before the trade frame, both
carrying exactly that chunk's pairs — the file-order slice
`(pairs.drop (100k)).take 100`, nonempty and of at most 100 pairs. -/
theorem claim_C8_kraken_chunked_subscription (pairList : List String) (k : Nat)
    (h : k < (pairList.length + 99) / 100) :
    (krakenEstablishedActions pairList).head? = some (.pauseUs 200000) ∧
    (chunksOf 100 pairList).length = (pairList.length + 99) / 100 ∧
    (krakenSubscriptionFrames pairList 100).length =
      2 * ((pairList.length + 99) / 100) ∧
    (krakenSubscriptionFrames pairList 100).getD (2 * k)
        { channel := "", pairs := [] } =
      { channel := "ticker", pairs := (pairList.drop (100 * k)).take 100 } ∧
    (krakenSubscriptionFrames pairList 100).getD (2 * k + 1)
        { channel := "", pairs := [] } =
      { channel := "trade", pairs := (pairList.drop (100 * k)).take 100 } ∧
    ((pairList.drop (100 * k)).take 100).length ≤ 100 ∧
    0 < ((pairList.drop (100 * k)).take 100).length := by
  have hlen : (chunksOf 100 pairList).length = (pairList.length + 99) / 100 :=
    chunksOf_length 99 pairList.length pairList (Nat.le_refl _)
  have hk : k < (chunksOf 100 pairList).length := by rw [hlen]; exact h
  have hchunk : (chunksOf 100 pairList).getD k [] =
      (pairList.drop (100 * k)).take 100 :=
    chunksOf_getD 99 pairList.length pairList k (Nat.le_refl _) hk
  refine ⟨rfl, hlen, ?_, ?_, ?_, ?_, ?_⟩
  · rw [krakenSubscriptionFrames, flatMap_two_length, hlen]
  · rw [krakenSubscriptionFrames,
      flatMap_two_getD_even _ _ _ ([] : List String) _ k hk, hchunk]
  · rw [krakenSubscriptionFrames,
      flatMap_two_getD_odd _ _ _ ([] : List String) _ k hk, hchunk]
  · simp [List.length_take]
  · have hlt : 100 * k < pairList.length := by omega
    simp [List.length_take, List.length_drop]
    omega

/-- Witness for claim C8: 101 pairs split into two chunks; the second chunk
(index 1) holds the single remaining pair. -/
theorem claim_C8_kraken_chunked_subscription_witness :
    (1 < ((List.replicate 101 "P").length + 99) / 100) ∧
    ((krakenEstablishedActions (List.replicate 101 "P")).head? =
        some (.pauseUs 200000) ∧
      (chunksOf 100 (List.replicate 101 "P")).length =
        ((List.replicate 101 "P").length + 99) / 100 ∧
      (krakenSubscriptionFrames (List.replicate 101 "P") 100).length =
        2 * (((List.replicate 101 "P").length + 99) / 100) ∧
      (krakenSubscriptionFrames (List.replicate 101 "P") 100).getD (2 * 1)
          { channel := "", pairs := [] } =
        { channel := "ticker",
          pairs := ((List.replicate 101 "P").drop (100 * 1)).take 100 } ∧
      (krakenSubscriptionFrames (List.replicate 101 "P") 100).getD (2 * 1 + 1)
          { channel := "", pairs := [] } =
        { channel := "trade",
          pairs := ((List.replicate 101 "P").drop (100 * 1)).take 100 } ∧
      (((List.replicate 101 "P").drop (100 * 1)).take 100).length ≤ 100 ∧
      0 < (((List.replicate 101 "P").drop (100 * 1)).take 100).length) :=
  ⟨by decide,
   claim_C8_kraken_chunked_subscription (List.replicate 101 "P") 1 (by decide)⟩

theorem scanCharSet_exact {w : Nat} {stop : Char} {pre post : List Char}
    (h1 : pre ≠ []) (h2 : pre.length ≤ w) (h3 : ∀ c ∈ pre, c ≠ stop) :
    scanCharSet w stop (pre ++ stop :: post) = some (pre, stop :: post) := by
  have htw : ((pre ++ stop :: post).take w).takeWhile (fun c => c ≠ stop) = pre := by
    rw [List.take_append_eq_append_take, List.take_of_length_le h2,
      takeWhile_append_of_all (fun c hc => decide_eq_true (h3 c hc))]
    cases hw : w - pre.length with
    | zero => simp
    | succ k => simp
  rw [scanCharSet, htw]
  rw [if_neg (by simpa using h1)]
  rw [List.drop_left]

/-- The ISO path of `normalize_timestamp`: an input of shape
`<date>T<time>Z<anything>` with a nonempty date of at most 10 non-`T`
characters and a nonempty time of at most 15 non-`Z` characters is rebuilt
as `<date> <time> UTC`, keeping the time field exactly as given. -/
theorem normalize_timestamp_iso (date time : String)
    (hd1 : date.data ≠ []) (hd2 : date.data.length ≤ 10)
    (hd3 : ∀ c ∈ date.data, c ≠ 'T')
    (ht1 : time.data ≠ []) (ht2 : time.data.length ≤ 15)
    (ht3 : ∀ c ∈ time.data, c ≠ 'Z') :
    normalize_timestamp (date ++ "T" ++ time ++ "Z") =
      some (date ++ " " ++ time ++ " UTC") := by
  have hdata : (date ++ "T" ++ time ++ "Z").data =
      date.data ++ 'T' :: (time.data ++ 'Z' :: []) := by
    simp [String.data_append]
  have hdigit : ((date ++ "T" ++ time ++ "Z").data.all (fun c => cIsDigit c)) = false := by
    rw [hdata]
    refine List.all_eq_false.mpr ⟨'T', ?_, by decide⟩
    simp
  rw [normalize_timestamp, if_neg (by rw [hdigit]; simp)]
  rw [hdata]
  simp [scanCharSet_exact hd1 hd2 hd3, scanCharSet_exact ht1 ht2 ht3, scanLit]

/-- Counterexample for claim C5 as frozen: the ISO path does not produce a
six-digit microsecond field — the Coinbase S2 time keeps its three
fractional digits. -/
theorem claim_C5_normalize_counterexample :
    normalize_timestamp "2023-11-14T22:13:20.001Z" =
      some "2023-11-14 22:13:20.001 UTC" ∧
    ("2023-11-14 22:13:20.001 UTC" : String) ≠ "2023-11-14 22:13:20.001000 UTC" := by
  refine ⟨by decide, by decide⟩

/-- Claim C5 (amended): every all-digit input takes the millisecond-epoch
path and succeeds, producing the canonical six-digit-microsecond form
(concretely, `1700000000000` becomes `2023-11-14 22:13:20.000000 UTC`);
an input of shape `<date>T<time>Z…` is rebuilt as `<date> <time> UTC`
with the fractional digits kept exactly as given — the Coinbase time
`2023-11-14T22:13:20.001Z` becomes `2023-11-14 22:13:20.001 UTC`; every
input the function fails to recognize leaves the caller's string
unchanged. -/
theorem claim_C5_normalize_timestamp_amended (date time : String)
    (hd1 : date.data ≠ []) (hd2 : date.data.length ≤ 10)
    (hd3 : ∀ c ∈ date.data, c ≠ 'T')
    (ht1 : time.data ≠ []) (ht2 : time.data.length ≤ 15)
    (ht3 : ∀ c ∈ time.data, c ≠ 'Z') :
    (∀ s : String, s.data.all (fun c => cIsDigit c) = true →
      (normalize_timestamp s).isSome = true) ∧
    normalize_timestamp "1700000000000" = some "2023-11-14 22:13:20.000000 UTC" ∧
    normalize_timestamp (date ++ "T" ++ time ++ "Z") =
      some (date ++ " " ++ time ++ " UTC") ∧
    (∀ s : String, normalize_timestamp s = none → formattedTimestamp s = s) ∧
    normalize_timestamp "not a time" = none ∧
    normalize_timestamp "2023-11-14T22:13:20.001Z" =
      some "2023-11-14 22:13:20.001 UTC" := by
  refine ⟨?_, by decide, normalize_timestamp_iso date time hd1 hd2 hd3 ht1 ht2 ht3,
    ?_, by decide, by decide⟩
  · intro s hs
    rw [normalize_timestamp, if_pos hs]
    rfl
  · intro s hnone
    rw [formattedTimestamp, hnone]

/-- Witness for claim C5 at the S2 Coinbase date and time fields. -/
theorem claim_C5_normalize_timestamp_amended_witness :
    (("2023-11-14" : String).data ≠ [] ∧ ("2023-11-14" : String).data.length ≤ 10 ∧
      (∀ c ∈ ("2023-11-14" : String).data, c ≠ 'T') ∧
      ("22:13:20.001" : String).data ≠ [] ∧
      ("22:13:20.001" : String).data.length ≤ 15 ∧
      (∀ c ∈ ("22:13:20.001" : String).data, c ≠ 'Z')) ∧
    normalize_timestamp ("2023-11-14" ++ "T" ++ "22:13:20.001" ++ "Z") =
      some ("2023-11-14" ++ " " ++ "22:13:20.001" ++ " UTC") :=
  ⟨⟨by decide, by decide, by decide, by decide, by decide, by decide⟩,
   (claim_C5_normalize_timestamp_amended "2023-11-14" "22:13:20.001"
      (by decide) (by decide) (by decide) (by decide) (by decide) (by decide)).2.2.1⟩

/-- An event is well-formed when any received message arrives on one of the
37 sessions of the `protocols[]` table. -/
def eventAllowed : WsEvent → Bool
  | .recv p _ => decide (p ∈ protocolNames)
  | .healthScan _ => true

/-- The (Binance, OKX) ledger keys never leave last-message time 0, and the
supervisor never fires them, along any well-formed trace. -/
theorem wsStep_no_binance_okx (st : LivenessState) (e : WsEvent)
    (hinv1 : st.map Prod.fst = retry_counts_init.map Prod.fst)
    (hinv2 : ∀ en ∈ st,
      (en.1 = "binance-websocket" ∨ en.1 = "okx-websocket") → en.2 = 0)
    (hok : eventAllowed e = true) :
    ((wsStep st e).1.map Prod.fst = retry_counts_init.map Prod.fst) ∧
    (∀ en ∈ (wsStep st e).1,
      (en.1 = "binance-websocket" ∨ en.1 = "okx-websocket") → en.2 = 0) ∧
    (∀ f ∈ (wsStep st e).2, f ≠ "binance-websocket" ∧ f ≠ "okx-websocket") := by
  have hbadb : ("binance-websocket" : String) ∉ protocolNames := by decide
  have hbado : ("okx-websocket" : String) ∉ protocolNames := by decide
  cases e with
  | recv p t =>
    have hp : p ∈ protocolNames := of_decide_eq_true hok
    simp only [wsStep, receiveTouch]
    cases hidx : get_exchange_index retry_counts_init p with
    | none =>
      exact ⟨hinv1, fun en hen => hinv2 en hen, by simp⟩
    | some i =>
      have hi25 : i < retry_counts_init.length := get_exchange_index_lt hidx
      have hstlen : st.length = retry_counts_init.length := by
        have := congrArg List.length hinv1
        simpa using this
      have hist : i < st.length := by omega
      have hkey : (st.getD i ("", 0)).1 = p := by
        have h1 : (st.map Prod.fst).getD i "" = (st.getD i ("", 0)).1 :=
          getD_map_of_lt Prod.fst st i ("", 0) "" hist
        have h2 : (retry_counts_init.map Prod.fst).getD i "" =
            (retry_counts_init.getD i ("", 0)).1 :=
          getD_map_of_lt Prod.fst retry_counts_init i ("", 0) "" hi25
        have h3 := get_exchange_index_key ("", 0) hidx
        rw [← h1, hinv1, h2, h3]
      refine ⟨?_, ?_, by simp⟩
      · rw [List.map_set]
        have : ((st.getD i ("", 0)).1, t).1 = (st.map Prod.fst).getD i "" := by
          rw [getD_map_of_lt Prod.fst st i ("", 0) "" hist]
        rw [this, set_getD_self _ _ _ (by simpa using hist), hinv1]
      · intro en hen hbad
        rcases List.mem_or_eq_of_mem_set hen with hmem | heq
        · exact hinv2 en hmem hbad
        · exfalso
          rw [heq] at hbad
          simp only at hbad
          rw [hkey] at hbad
          rcases hbad with hb | hb
          · exact hbadb (hb ▸ hp)
          · exact hbado (hb ▸ hp)
  | healthScan now =>
    simp only [wsStep, monitorScan]
    refine ⟨?_, ?_, ?_⟩
    · rw [List.map_map]
      have : st.map (Prod.fst ∘ fun en => (scanEntry now en).1) = st.map Prod.fst :=
        List.map_congr_left (fun en _ => scanEntry_fst_key now en)
      rw [this, hinv1]
    · intro en hen hbad
      obtain ⟨en0, hen0, rfl⟩ := List.mem_map.mp hen
      have hkey0 : ((scanEntry now en0).1).1 = en0.1 := scanEntry_fst_key now en0
      have hz : en0.2 = 0 := hinv2 en0 hen0 (by rw [← hkey0]; exact hbad)
      rw [scanEntry, if_pos hz]
      exact hz
    · intro f hf
      obtain ⟨en0, hen0, rfl⟩ := List.mem_map.mp hf
      have hdec := (List.mem_filter.mp hen0).2
      have hmem := (List.mem_filter.mp hen0).1
      have hne : en0.2 ≠ 0 := ((scanEntry_fired_iff now en0).mp hdec).1
      constructor
      · intro hb
        exact hne (hinv2 en0 hmem (Or.inl hb))
      · intro hb
        exact hne (hinv2 en0 hmem (Or.inr hb))

theorem runEvents_no_binance_okx :
    ∀ (events : List WsEvent) (st : LivenessState),
      st.map Prod.fst = retry_counts_init.map Prod.fst →
      (∀ en ∈ st,
        (en.1 = "binance-websocket" ∨ en.1 = "okx-websocket") → en.2 = 0) →
      (∀ e ∈ events, eventAllowed e = true) →
      ∀ f ∈ (runEvents st events).2,
        f ≠ "binance-websocket" ∧ f ≠ "okx-websocket" := by
  intro events
  induction events with
  | nil =>
    intro st _ _ _ f hf
    simp [runEvents] at hf
  | cons e rest ih =>
    intro st hinv1 hinv2 hall f hf
    have hstep := wsStep_no_binance_okx st e hinv1 hinv2 (hall e (by simp))
    rw [runEvents] at hf
    simp only [List.mem_append] at hf
    rcases hf with hf1 | hf2
    · exact hstep.2.2 f hf1
    · exact ih (wsStep st e).1 hstep.1 hstep.2.1
        (fun e' he' => hall e' (by simp [he'])) f hf2

/-- Claim C10: the retry ledger has exactly the 25 initialized keys and none
of them is a chunked Binance or OKX protocol name, so every Binance/OKX
session's receive callback finds no ledger index; along any trace of
receive and supervisor-scan events restricted to the 37 real session names,
starting from the all-zero last-message-time state, the supervisor never
requests a reconnect for the Binance or OKX ledger keys. -/
theorem claim_C10_binance_okx_never_supervised (events : List WsEvent)
    (hall : ∀ e ∈ events, eventAllowed e = true) :
    retry_counts_init.length = 25 ∧
    (∀ p ∈ (["binance-websocket-0", "binance-websocket-1", "binance-websocket-2",
        "binance-websocket-3", "binance-websocket-4", "binance-websocket-5",
        "okx-websocket-0", "okx-websocket-1", "okx-websocket-2",
        "okx-websocket-3", "okx-websocket-4", "okx-websocket-5",
        "okx-websocket-6", "okx-websocket-7"] : List String),
      p ∈ protocolNames ∧ get_exchange_index retry_counts_init p = none) ∧
    ∀ f ∈ (runEvents initialLiveness events).2,
      f ≠ "binance-websocket" ∧ f ≠ "okx-websocket" := by
  refine ⟨by decide, by decide, ?_⟩
  exact runEvents_no_binance_okx events initialLiveness (by decide) (by decide) hall

/-- Witness for claim C10: a receive on a chunked Binance session followed
by a supervisor scan. -/
theorem claim_C10_binance_okx_never_supervised_witness :
    (∀ e ∈ ([.recv "binance-websocket-0" 100, .healthScan 200] : List WsEvent),
      eventAllowed e = true) ∧
    (retry_counts_init.length = 25 ∧
      (∀ p ∈ (["binance-websocket-0", "binance-websocket-1", "binance-websocket-2",
          "binance-websocket-3", "binance-websocket-4", "binance-websocket-5",
          "okx-websocket-0", "okx-websocket-1", "okx-websocket-2",
          "okx-websocket-3", "okx-websocket-4", "okx-websocket-5",
          "okx-websocket-6", "okx-websocket-7"] : List String),
        p ∈ protocolNames ∧ get_exchange_index retry_counts_init p = none) ∧
      ∀ f ∈ (runEvents initialLiveness
          ([.recv "binance-websocket-0" 100, .healthScan 200] : List WsEvent)).2,
        f ≠ "binance-websocket" ∧ f ≠ "okx-websocket") :=
  ⟨by decide,
   claim_C10_binance_okx_never_supervised
     [.recv "binance-websocket-0" 100, .healthScan 200] (by decide)⟩

end CryptoWS
